import Mathlib

/-!
# SARDAM school website backend (`src/server.js`)

A shallow embedding of the route handlers of `src/server.js` and of the
values they inspect, followed by theorems about them.

* JavaScript strings are Lean strings; a handler looks at their characters
  through `String.data`.  A character outside the basic plane stands for its
  two code units, which the character classes used here treat alike.
* A parsed request body is a `Json` value; `undefined` is `none`.  The JSON
  body parser of Express yields objects and arrays only, so `null` is kept in
  the model as the one value whose destructuring throws.
* A thrown exception inside a handler's `try` block is `none`; the `catch`
  block turns it into the handler's 500 response.
* `process.env` is a function from variable names to optional strings.
-/

namespace Sardam

/-! ## JSON values and the JavaScript conversions the handlers apply to them -/

mutual
/-- A value produced by `JSON.parse`.  Numbers are the integer-valued ones. -/
inductive Json where
  | null : Json
  | bool (b : Bool) : Json
  | num (n : Int) : Json
  | str (s : String) : Json
  | arr (xs : JsonList) : Json
  | obj (kvs : JsonFields) : Json
/-- The elements of a JSON array. -/
inductive JsonList where
  | nil : JsonList
  | cons (x : Json) (xs : JsonList) : JsonList
/-- The members of a JSON object, in source order. -/
inductive JsonFields where
  | nil : JsonFields
  | cons (k : String) (v : Json) (rest : JsonFields) : JsonFields
end

/-- Own-property lookup in a parsed object: a later duplicate key wins. -/
def JsonFields.get : JsonFields → String → Option Json
  | .nil, _ => none
  | .cons k v rest, key =>
    match rest.get key with
    | some w => some w
    | none => if k = key then some v else none

/-- Property read `body.key` for the keys the handlers destructure
(`name`, `email`, `subject`, `message`, `logoData`): an own property of an
object, `undefined` on every other value that can be destructured. -/
def Json.prop : Json → String → Option Json
  | .obj kvs, key => kvs.get key
  | _, _ => none

/-- JavaScript truthiness (`!x` is the negation), `none` being `undefined`. -/
def truthy : Option Json → Bool
  | none => false
  | some .null => false
  | some (.bool b) => b
  | some (.num n) => n != 0
  | some (.str s) => s != ""
  | some (.arr _) => true
  | some (.obj _) => true

mutual
/-- JavaScript `ToString`; `none` is a thrown `TypeError` (an object whose own
`toString` member shadows `Object.prototype.toString` with a non-callable). -/
def Json.toStr : Json → Option String
  | .null => some "null"
  | .bool b => some (if b then "true" else "false")
  | .num n => some (toString n)
  | .str s => some s
  | .arr xs => xs.join
  | .obj kvs =>
    match kvs.get "toString" with
    | some _ => none
    | none => some "[object Object]"
/-- The method `Array.prototype.join` with the default separator `,`:
a `null` element contributes the empty string. -/
def JsonList.join : JsonList → Option String
  | .nil => some ""
  | .cons x .nil => x.elemStr
  | .cons x (.cons y ys) =>
    match x.elemStr, (JsonList.cons y ys).join with
    | some a, some b => some (a ++ "," ++ b)
    | _, _ => none
/-- The text one array element contributes to `join`. -/
def Json.elemStr : Json → Option String
  | .null => some ""
  | .bool b => some (if b then "true" else "false")
  | .num n => some (toString n)
  | .str s => some s
  | .arr xs => xs.join
  | .obj kvs =>
    match kvs.get "toString" with
    | some _ => none
    | none => some "[object Object]"
end

/-! ## Regular expressions -/

/-- The fragment of regular expressions used by `server.js`. -/
inductive Re where
  | empty : Re
  | eps : Re
  | cls (p : Char → Bool) : Re
  | seq (a b : Re) : Re
  | alt (a b : Re) : Re
  | star (a : Re) : Re

/-- One or more repetitions: `a+`. -/
def Re.plus (a : Re) : Re := .seq a (.star a)

/-- A literal character. -/
def Re.chr (c : Char) : Re := .cls (fun d => d == c)

/-- Whether the expression matches the empty string. -/
def Re.nullable : Re → Bool
  | .empty => false
  | .eps => true
  | .cls _ => false
  | .seq a b => a.nullable && b.nullable
  | .alt a b => a.nullable || b.nullable
  | .star _ => true

/-- Brzozowski derivative of an expression by one character. -/
def Re.deriv : Re → Char → Re
  | .empty, _ => .empty
  | .eps, _ => .empty
  | .cls p, c => if p c then .eps else .empty
  | .seq a b, c =>
    if a.nullable then .alt (.seq (a.deriv c) b) (b.deriv c) else .seq (a.deriv c) b
  | .alt a b, c => .alt (a.deriv c) (b.deriv c)
  | .star a, c => .seq (a.deriv c) (.star a)

/-- Whether an expression anchored with `^` and `$` matches the whole input. -/
def Re.matchAll (r : Re) : List Char → Bool
  | [] => r.nullable
  | c :: cs => (r.deriv c).matchAll cs

/-- The class `\s` of ECMAScript: the white space and line terminator
code points. -/
def isJsSpace (c : Char) : Bool :=
  let n := c.toNat
  n == 0x09 || n == 0x0A || n == 0x0B || n == 0x0C || n == 0x0D || n == 0x20 ||
  n == 0xA0 || n == 0x1680 || (0x2000 ≤ n && n ≤ 0x200A) || n == 0x2028 ||
  n == 0x2029 || n == 0x202F || n == 0x205F || n == 0x3000 || n == 0xFEFF

/-- The class `[^\s@]`. -/
def notSpaceAt (c : Char) : Bool := !isJsSpace c && c != '@'

/-- The literal `/^[^\s@]+@[^\s@]+\.[^\s@]+$/` of the contact handler. -/
def emailRegex : Re :=
  .seq (Re.plus (.cls notSpaceAt))
    (.seq (Re.chr '@')
      (.seq (Re.plus (.cls notSpaceAt))
        (.seq (Re.chr '.') (Re.plus (.cls notSpaceAt)))))

/-- The call `regex.test(v)`: the argument is converted with `ToString`
(which may throw) and matched. -/
def Re.test (r : Re) (v : Json) : Option Bool :=
  match v.toStr with
  | some s => some (r.matchAll s.data)
  | none => none

/-! ## Responses -/

/-- The public configuration object of `GET /api/config`. -/
structure PublicConfig where
  name : String
  establishedYear : String
  email : String
  facebook : String
  instagram : String
  tiktok : String
  enableWhatsApp : Bool
  enableContactForm : Bool
  deriving DecidableEq, Repr

/-- The JSON bodies the handlers send. -/
inductive ResBody where
  /-- The body `{error}`. -/
  | error (error : String)
  /-- The body `{success: true, message}`. -/
  | success (message : String)
  /-- The body `{enabled: true, number}`. -/
  | whatsapp (number : String)
  /-- The body `{school, socialMedia, features}`. -/
  | config (c : PublicConfig)
  /-- The body `{error, message}` of the error middleware. -/
  | failure (error : String) (message : String)
  deriving DecidableEq, Repr

/-- An HTTP response: status code and JSON body. -/
structure Response where
  status : Nat
  body : ResBody
  deriving DecidableEq, Repr

/-- The call `res.json(b)`: status 200. -/
def Response.json (b : ResBody) : Response := ⟨200, b⟩

/-! ## `POST /api/contact` -/

/-- The `try` block of the contact handler; `none` is a thrown exception
(destructuring `null`, or `ToString` failing inside `test`). -/
def contactTry (body : Json) : Option Response :=
  match body with
  | .null => none
  | _ =>
    let name := body.prop "name"
    let email := body.prop "email"
    let subject := body.prop "subject"
    let message := body.prop "message"
    if !truthy name || !truthy email || !truthy subject || !truthy message then
      some ⟨400, .error "All fields are required"⟩
    else
      match email with
      | none => none
      | some e =>
        match emailRegex.test e with
        | none => none
        | some false => some ⟨400, .error "Invalid email address"⟩
        | some true =>
          some (Response.json
            (.success "Your message has been received. We will contact you soon!"))

/-- The handler of `POST /api/contact`. -/
def contactHandler (body : Json) : Response :=
  match contactTry body with
  | some r => r
  | none => ⟨500, .error "An error occurred. Please try again later."⟩

/-- The shape `L@D.T` with `L`, `D`, `T` non-empty and free of white space
and of `@`. -/
def EmailShape (s : List Char) : Prop :=
  ∃ l d t : List Char, s = l ++ '@' :: (d ++ '.' :: t) ∧ l ≠ [] ∧ d ≠ [] ∧ t ≠ [] ∧
    (∀ c ∈ l, notSpaceAt c = true) ∧ (∀ c ∈ d, notSpaceAt c = true) ∧
    (∀ c ∈ t, notSpaceAt c = true)

/-- A JSON object with the four contact fields. -/
def contactBody (name email subject message : Json) : Json :=
  .obj (.cons "name" name (.cons "email" email (.cons "subject" subject
    (.cons "message" message .nil))))

/-! ## Environment-driven handlers -/

/-- The object `process.env`: each variable is unset or holds a string. -/
abbrev Env := String → Option String

/-- The expression `v || d` for an environment value `v`: an unset variable
and the empty string are both falsy. -/
def orDefault (v : Option String) (d : String) : String :=
  match v with
  | none => d
  | some s => if s = "" then d else s

/-- The comparison `v === 'true'`. -/
def isTrueString (v : Option String) : Bool :=
  match v with
  | none => false
  | some s => s == "true"

/-- The handler of `GET /api/config`. -/
def configHandler (env : Env) : Response :=
  Response.json (.config
    { name := orDefault (env "SCHOOL_NAME") "SARDAM"
      establishedYear := orDefault (env "ESTABLISHED_YEAR") "2015"
      email := orDefault (env "SCHOOL_EMAIL") "info@sardam.edu"
      facebook := orDefault (env "FACEBOOK_URL") ""
      instagram := orDefault (env "INSTAGRAM_URL") ""
      tiktok := orDefault (env "TIKTOK_URL") ""
      enableWhatsApp := isTrueString (env "ENABLE_WHATSAPP")
      enableContactForm := isTrueString (env "ENABLE_CONTACT_FORM") })

/-- A response field `x` taken from the variable `v` with default `d`: the
value of the variable when it is set and non-empty, the default when it is
unset or empty. -/
def FieldFrom (v : Option String) (d x : String) : Prop :=
  (∀ s, v = some s → s ≠ "" → x = s) ∧ (v = none ∨ v = some "" → x = d)

/-- The eight variables read by `GET /api/config`. -/
def configVars : List String :=
  ["SCHOOL_NAME", "ESTABLISHED_YEAR", "SCHOOL_EMAIL", "FACEBOOK_URL", "INSTAGRAM_URL",
    "TIKTOK_URL", "ENABLE_WHATSAPP", "ENABLE_CONTACT_FORM"]

/-- The class `\d`: the characters `0` to `9`. -/
def isDigitChar (c : Char) : Bool := '0' ≤ c && c ≤ '9'

/-- The call `s.replace(/\D/g, '')`: every non-digit is deleted. -/
def stripNonDigits (s : String) : String := ⟨s.data.filter isDigitChar⟩

/-- The handler of `GET /api/whatsapp`. -/
def whatsappHandler (env : Env) : Response :=
  match env "WHATSAPP_NUMBER" with
  | none => ⟨503, .error "WhatsApp service not configured"⟩
  | some whatsappNumber =>
    if whatsappNumber = "" then ⟨503, .error "WhatsApp service not configured"⟩
    else Response.json (.whatsapp (stripNonDigits whatsappNumber))

/-- An error object handed to the error middleware. -/
structure JsError where
  message : String
  deriving DecidableEq, Repr

/-- The error handling middleware. -/
def errorHandler (env : Env) (err : JsError) : Response :=
  ⟨500, .failure "Internal server error"
    (if env "NODE_ENV" = some "development" then err.message else "Something went wrong")⟩

/-- An environment in which one variable is set and all others are unset. -/
def envWith (k v : String) : Env := fun x => if x = k then some v else none

/-! ## `POST /api/logo` -/

/-- The method `String.prototype.split` with a one-character separator. -/
def splitOn (sep : Char) : List Char → List (List Char)
  | [] => [[]]
  | c :: cs =>
    if c = sep then [] :: splitOn sep cs
    else
      match splitOn sep cs with
      | [] => [[c]]
      | seg :: rest => (c :: seg) :: rest

/-- The value of a character in the base64 alphabets Node accepts
(`+` and `-` are 62, `/` and `_` are 63). -/
def unbase64 (c : Char) : Option Nat :=
  if 'A' ≤ c && c ≤ 'Z' then some (c.toNat - 65)
  else if 'a' ≤ c && c ≤ 'z' then some (c.toNat - 97 + 26)
  else if '0' ≤ c && c ≤ '9' then some (c.toNat - 48 + 52)
  else if c = '+' || c = '-' then some 62
  else if c = '/' || c = '_' then some 63
  else none

/-- The six-bit values Node's base64 decoder reads: characters outside the
alphabet are skipped and decoding stops at the first `=`. -/
def sextets (s : List Char) : List Nat :=
  (s.takeWhile (fun c => c != '=')).filterMap unbase64

/-- The bytes packed from six-bit values: four values give three bytes, a
final group of three gives two bytes, of two gives one, of one gives none. -/
def packBytes : List Nat → List Nat
  | a :: b :: c :: d :: rest =>
    (a * 4 + b / 16) :: ((b % 16) * 16 + c / 4) :: ((c % 4) * 64 + d) :: packBytes rest
  | [a, b, c] => [a * 4 + b / 16, (b % 16) * 16 + c / 4]
  | [a, b] => [a * 4 + b / 16]
  | _ => []

/-- The call `Buffer.from(s, 'base64')` on a string: the decoded bytes. -/
def bufferFromBase64 (s : List Char) : List Nat := packBytes (sextets s)

/-- The `try` block of the logo handler; `none` is a thrown exception:
destructuring `null`, calling `startsWith` on a value that is not a string, or
`Buffer.from(undefined, 'base64')` when the string has no comma. -/
def logoTry (body : Json) : Option Response :=
  match body with
  | .null => none
  | _ =>
    let logoData := body.prop "logoData"
    if !truthy logoData then some ⟨400, .error "No logo data provided"⟩
    else
      match logoData with
      | some (.str s) =>
        if !("data:image/".data.isPrefixOf s.data) then
          some ⟨400, .error "Invalid image format"⟩
        else
          match (splitOn ',' s.data)[1]? with
          | none => none
          | some payload =>
            let sizeInBytes : Nat := (bufferFromBase64 payload).length
            let sizeInMB : ℚ := (sizeInBytes : ℚ) / (1024 * 1024)
            if sizeInMB > 2 then some ⟨400, .error "Logo size must be less than 2MB"⟩
            else some (Response.json (.success "Logo uploaded successfully"))
      | _ => none

/-- The handler of `POST /api/logo`. -/
def logoHandler (body : Json) : Response :=
  match logoTry body with
  | some r => r
  | none => ⟨500, .error "An error occurred. Please try again later."⟩

/-- The constant `CONFIG.security.maxLogoSize` of `config.js`. -/
def maxLogoSize : Nat := 2 * 1024 * 1024

/-- A body `{logoData: s}`. -/
def logoBody (s : String) : Json := .obj (.cons "logoData" (.str s) .nil)

/-- The characters of the standard base64 alphabet. -/
def isBase64Char (c : Char) : Bool :=
  ('A' ≤ c && c ≤ 'Z') || ('a' ≤ c && c ≤ 'z') || ('0' ≤ c && c ≤ '9') || c = '+' || c = '/'

/-- A well-formed base64 payload: alphabet characters followed by `pad`
padding characters `=`, at most two, the whole a multiple of four long. -/
def WellFormedBase64 (payload : List Char) (pad : Nat) : Prop :=
  ∃ chars : List Char, payload = chars ++ List.replicate pad '=' ∧ pad ≤ 2 ∧
    (∀ c ∈ chars, isBase64Char c = true) ∧ payload.length % 4 = 0

/-- The number of bytes a well-formed payload with `pad` padding characters
encodes. -/
def decodedSize (payload : List Char) (pad : Nat) : Nat := 3 * (payload.length / 4) - pad

/-- A payload of `n` characters `A` followed by `pad` characters `=`. -/
def zeroPayload (n pad : Nat) : List Char := List.replicate n 'A' ++ List.replicate pad '='

/-- The PNG data URI with the given base64 payload. -/
def pngDataUri (payload : List Char) : String := ⟨"data:image/png;base64,".data ++ payload⟩

/-! ## Rate limiting -/

/-- The options passed to `rateLimit`: window length in milliseconds,
maximum number of requests per window, and the configured message, if any. -/
structure Policy where
  windowMs : Nat
  max : Nat
  message : Option String
  deriving DecidableEq, Repr

/-- The general limiter mounted on `/api/`. -/
def limiter : Policy :=
  { windowMs := 15 * 60 * 1000
    max := 100
    message := some "Too many requests from this IP, please try again later." }

/-- The limiter of the contact route. -/
def contactLimiter : Policy :=
  { windowMs := 60 * 60 * 1000
    max := 5
    message := some "Too many contact form submissions, please try again later." }

/-- The limiter of the logo route, built inline without a message. -/
def logoLimiter : Policy :=
  { windowMs := 60 * 60 * 1000
    max := 10
    message := none }

/-- The counting window of one client under one policy. -/
structure RateWindow where
  start : Nat
  count : Nat
  deriving DecidableEq, Repr

/-- The windows of one policy, by client key. -/
abbrev Store := String → Option RateWindow

/-- The outcome of the limiter for one request. -/
inductive Decision where
  | allowed
  | rejected (status : Nat) (message : Option String)
  deriving DecidableEq, Repr

/-- The store with the window of one client replaced. -/
def Store.set (store : Store) (key : String) (w : RateWindow) : Store :=
  fun k => if k = key then some w else store k

/-- Modelled from the spec: the fixed-window counter of the `rateLimit`
middleware (package `express-rate-limit`, absent from the sources), as section
4.2 describes it.  If no window exists for the key or the existing window has
expired, a new window is started with count 1 and the request is allowed;
otherwise the count is incremented and the request is allowed if the count is
at most the maximum, and rejected with the "too many requests" status and the
message of the policy otherwise. -/
def checkAndConsume (p : Policy) (store : Store) (key : String) (now : Nat) :
    Decision × Store :=
  match store key with
  | none => (.allowed, store.set key ⟨now, 1⟩)
  | some w =>
    if w.start + p.windowMs ≤ now then (.allowed, store.set key ⟨now, 1⟩)
    else
      let count := w.count + 1
      (if count ≤ p.max then .allowed else .rejected 429 p.message,
        store.set key ⟨w.start, count⟩)

/-- The decisions for successive requests of one client at the given times,
and the store they leave. -/
def runKey (p : Policy) (key : String) : Store → List Nat → List Decision × Store
  | store, [] => ([], store)
  | store, t :: ts =>
    let r := checkAndConsume p store key t
    let rs := runKey p key r.2 ts
    (r.1 :: rs.1, rs.2)

theorem notSpaceAt_iff (c : Char) :
    notSpaceAt c = true ↔ isJsSpace c = false ∧ c ≠ '@' := by
  simp [notSpaceAt]

/-- The shape `L@D.T` in other words: a single `@` with a non-empty part
before it, no white space anywhere, and in the part after the `@` a `.` that
is neither its first nor its last character. -/
theorem emailShape_iff_parts (s : List Char) :
    EmailShape s ↔
      ∃ l p : List Char, s = l ++ '@' :: p ∧ l ≠ [] ∧ '@' ∉ l ∧ '@' ∉ p ∧
        (∀ c ∈ s, isJsSpace c = false) ∧
        ∃ d t : List Char, p = d ++ '.' :: t ∧ d ≠ [] ∧ t ≠ [] := by
  constructor
  · rintro ⟨l, d, t, rfl, hl, hd, ht, hl2, hd2, ht2⟩
    refine ⟨l, d ++ '.' :: t, rfl, hl, ?_, ?_, ?_, d, t, rfl, hd, ht⟩
    · intro h
      exact ((notSpaceAt_iff _).1 (hl2 _ h)).2 rfl
    · intro h
      rcases List.mem_append.1 h with h | h
      · exact ((notSpaceAt_iff _).1 (hd2 _ h)).2 rfl
      · rcases List.mem_cons.1 h with h | h
        · exact absurd h (by decide)
        · exact ((notSpaceAt_iff _).1 (ht2 _ h)).2 rfl
    · intro c hc
      rcases List.mem_append.1 hc with h | h
      · exact ((notSpaceAt_iff _).1 (hl2 _ h)).1
      · rcases List.mem_cons.1 h with h | h
        · rw [h]; decide
        · rcases List.mem_append.1 h with h | h
          · exact ((notSpaceAt_iff _).1 (hd2 _ h)).1
          · rcases List.mem_cons.1 h with h | h
            · rw [h]; decide
            · exact ((notSpaceAt_iff _).1 (ht2 _ h)).1
  · rintro ⟨l, p, rfl, hl, hal, hap, hsp, d, t, rfl, hd, ht⟩
    refine ⟨l, d, t, rfl, hl, hd, ht, ?_, ?_, ?_⟩
    · intro c hc
      refine (notSpaceAt_iff c).2 ⟨hsp c (List.mem_append_left _ hc), ?_⟩
      rintro rfl
      exact hal hc
    · intro c hc
      refine (notSpaceAt_iff c).2
        ⟨hsp c (List.mem_append_right _ (List.mem_cons_of_mem _ (List.mem_append_left _ hc))), ?_⟩
      rintro rfl
      exact hap (List.mem_append_left _ hc)
    · intro c hc
      refine (notSpaceAt_iff c).2
        ⟨hsp c (List.mem_append_right _ (List.mem_cons_of_mem _
          (List.mem_append_right _ (List.mem_cons_of_mem _ hc)))), ?_⟩
      rintro rfl
      exact hap (List.mem_append_right _ (List.mem_cons_of_mem _ hc))

/-- The email expression on sample inputs. -/
theorem emailRegex_samples :
    emailRegex.matchAll "a@b.com".data = true ∧
    emailRegex.matchAll "a@b.c.d".data = true ∧
    emailRegex.matchAll "not-an-email".data = false ∧
    emailRegex.matchAll "a@b@c.com".data = false ∧
    emailRegex.matchAll "@b.c".data = false ∧
    emailRegex.matchAll "a@.c".data = false ∧
    emailRegex.matchAll "a@b.".data = false ∧
    emailRegex.matchAll "a @b.c".data = false := by
  decide

/-- The body of the contact handler's `try` block once destructuring
has succeeded. -/
theorem contactTry_of_ne_null (body : Json) (hb : body ≠ .null) :
    contactTry body =
      if !truthy (body.prop "name") || !truthy (body.prop "email") ||
          !truthy (body.prop "subject") || !truthy (body.prop "message") then
        some ⟨400, .error "All fields are required"⟩
      else
        match body.prop "email" with
        | none => none
        | some e =>
          match emailRegex.test e with
          | none => none
          | some false => some ⟨400, .error "Invalid email address"⟩
          | some true =>
            some (Response.json
              (.success "Your message has been received. We will contact you soon!")) := by
  cases body with
  | null => exact absurd rfl hb
  | bool b => rfl
  | num n => rfl
  | str t => rfl
  | arr xs => rfl
  | obj kvs => rfl

theorem truthy_str (t : String) : truthy (some (.str t)) = true ↔ t ≠ "" := by
  simp [truthy]

/-- C1: a body that can be destructured and in which one of `name`, `email`,
`subject`, `message` is absent or the empty string is answered with status 400
and `{error: 'All fields are required'}`, whatever the other fields hold. -/
theorem contact_missing_field (body : Json) (k : String) (hb : body ≠ .null)
    (hk : k ∈ ["name", "email", "subject", "message"])
    (h : body.prop k = none ∨ body.prop k = some (.str "")) :
    contactHandler body = ⟨400, .error "All fields are required"⟩ := by
  have ht : truthy (body.prop k) = false := by
    rcases h with h | h <;> rw [h] <;> rfl
  unfold contactHandler
  rw [contactTry_of_ne_null body hb]
  simp only [List.mem_cons, List.mem_singleton, List.mem_nil_iff, or_false] at hk
  rcases hk with rfl | rfl | rfl | rfl <;> simp [ht]

/-- C1 at concrete inputs: the email field is absent while the others are
present, and the message is empty while the email is malformed. -/
theorem contact_missing_field_witness :
    (Json.obj (.cons "name" (.str "A") (.cons "subject" (.str "S")
        (.cons "message" (.str "M") .nil))) ≠ Json.null ∧
      "email" ∈ ["name", "email", "subject", "message"] ∧
      contactHandler (.obj (.cons "name" (.str "A") (.cons "subject" (.str "S")
        (.cons "message" (.str "M") .nil)))) = ⟨400, .error "All fields are required"⟩) ∧
    contactHandler (contactBody (.str "A") (.str "not-an-email") (.str "S") (.str "")) =
      ⟨400, .error "All fields are required"⟩ :=
  ⟨⟨nofun, by decide,
    contact_missing_field _ "email" nofun (by decide) (Or.inl rfl)⟩,
   contact_missing_field _ "message" nofun (by decide) (Or.inr rfl)⟩

/-- C6: `GET /api/whatsapp` answers 503 `{error: 'WhatsApp service not
configured'}` exactly when `WHATSAPP_NUMBER` is unset or empty; otherwise it
answers 200 `{enabled: true, number}` where `number` is the configured value
with every non-digit deleted: only `0`-`9` occur in it, in the original order,
and no digit of the value is lost. -/
theorem whatsapp_digits_only (env : Env) :
    (whatsappHandler env = ⟨503, .error "WhatsApp service not configured"⟩ ↔
      (env "WHATSAPP_NUMBER" = none ∨ env "WHATSAPP_NUMBER" = some "")) ∧
    (∀ v, env "WHATSAPP_NUMBER" = some v → v ≠ "" →
      whatsappHandler env = ⟨200, .whatsapp (stripNonDigits v)⟩ ∧
      (∀ c ∈ (stripNonDigits v).data, '0' ≤ c ∧ c ≤ '9') ∧
      (stripNonDigits v).data.Sublist v.data ∧
      (∀ c, '0' ≤ c → c ≤ '9' → (stripNonDigits v).data.count c = v.data.count c)) ∧
    whatsappHandler (envWith "WHATSAPP_NUMBER" "+964 750 123 4567") =
      ⟨200, .whatsapp "9647501234567"⟩ := by
  refine ⟨?_, ?_, by decide⟩
  · unfold whatsappHandler
    cases h : env "WHATSAPP_NUMBER" with
    | none => simp
    | some v =>
      by_cases hv : v = ""
      · simp [hv]
      · simp [hv, Response.json]
  · intro v hv hne
    refine ⟨?_, ?_, ?_, ?_⟩
    · unfold whatsappHandler
      rw [hv]
      simp [hne, Response.json]
    · intro c hc
      have := (List.mem_filter.1 hc).2
      simpa [isDigitChar] using this
    · exact List.filter_sublist _
    · intro c h0 h9
      unfold stripNonDigits
      simp only
      rw [List.count_filter]
      simp [isDigitChar, h0, h9]

/-- C6 at the number of the specification and at an unset variable. -/
theorem whatsapp_digits_only_witness :
    whatsappHandler (envWith "WHATSAPP_NUMBER" "+964 750 123 4567") =
      ⟨200, .whatsapp (stripNonDigits "+964 750 123 4567")⟩ ∧
    stripNonDigits "+964 750 123 4567" = "9647501234567" ∧
    whatsappHandler (fun _ => none) = ⟨503, .error "WhatsApp service not configured"⟩ :=
  ⟨((whatsapp_digits_only (envWith "WHATSAPP_NUMBER" "+964 750 123 4567")).2.1
      "+964 750 123 4567" rfl (by decide)).1,
   by decide,
   (whatsapp_digits_only (fun _ => none)).1.2 (Or.inl rfl)⟩

/-! ### `GET /api/config` -/

theorem orDefault_of_set (v : Option String) (d s : String) (h : v = some s) (hs : s ≠ "") :
    orDefault v d = s := by
  subst h
  simp [orDefault, hs]

theorem orDefault_of_unset (v : Option String) (d : String) (h : v = none ∨ v = some "") :
    orDefault v d = d := by
  rcases h with rfl | rfl <;> simp [orDefault]

theorem fieldFrom_orDefault (v : Option String) (d : String) :
    FieldFrom v d (orDefault v d) :=
  ⟨fun s h hs => orDefault_of_set v d s h hs, fun h => orDefault_of_unset v d h⟩

/-- C7 as stated fails: with `SCHOOL_NAME` set to the empty string the
response carries the default name `SARDAM`, not the value of the variable. -/
theorem config_empty_name_defaults :
    envWith "SCHOOL_NAME" "" "SCHOOL_NAME" = some "" ∧
    configHandler (envWith "SCHOOL_NAME" "") =
      ⟨200, .config
        { name := "SARDAM", establishedYear := "2015", email := "info@sardam.edu",
          facebook := "", instagram := "", tiktok := "",
          enableWhatsApp := false, enableContactForm := false }⟩ ∧
    ¬ (∀ c, configHandler (envWith "SCHOOL_NAME" "") = ⟨200, .config c⟩ → c.name = "") := by
  refine ⟨by decide, by decide, ?_⟩
  intro h
  exact absurd (h _ rfl) (by decide)

/-- C7, amended: `GET /api/config` always answers 200 with the configuration
object; each string field is its variable when that variable is set and
non-empty, and its default (`SARDAM`, `2015`, `info@sardam.edu`, empty, empty,
empty) when the variable is unset or empty; each flag is true exactly when its
variable is the string `true`; and two environments that agree on the eight
variables get the same response. -/
theorem config_from_env (env : Env) :
    (∃ c, configHandler env = ⟨200, .config c⟩ ∧
      FieldFrom (env "SCHOOL_NAME") "SARDAM" c.name ∧
      FieldFrom (env "ESTABLISHED_YEAR") "2015" c.establishedYear ∧
      FieldFrom (env "SCHOOL_EMAIL") "info@sardam.edu" c.email ∧
      FieldFrom (env "FACEBOOK_URL") "" c.facebook ∧
      FieldFrom (env "INSTAGRAM_URL") "" c.instagram ∧
      FieldFrom (env "TIKTOK_URL") "" c.tiktok ∧
      (c.enableWhatsApp = true ↔ env "ENABLE_WHATSAPP" = some "true") ∧
      (c.enableContactForm = true ↔ env "ENABLE_CONTACT_FORM" = some "true")) ∧
    (∀ env2 : Env, (∀ k ∈ configVars, env2 k = env k) →
      configHandler env2 = configHandler env) := by
  constructor
  · refine ⟨_, rfl, fieldFrom_orDefault _ _, fieldFrom_orDefault _ _, fieldFrom_orDefault _ _,
      fieldFrom_orDefault _ _, fieldFrom_orDefault _ _, fieldFrom_orDefault _ _, ?_, ?_⟩
    · cases env "ENABLE_WHATSAPP" <;> simp [isTrueString]
    · cases env "ENABLE_CONTACT_FORM" <;> simp [isTrueString]
  · intro env2 h
    unfold configHandler
    rw [h "SCHOOL_NAME" (by decide), h "ESTABLISHED_YEAR" (by decide),
      h "SCHOOL_EMAIL" (by decide), h "FACEBOOK_URL" (by decide),
      h "INSTAGRAM_URL" (by decide), h "TIKTOK_URL" (by decide),
      h "ENABLE_WHATSAPP" (by decide), h "ENABLE_CONTACT_FORM" (by decide)]

/-- C7, amended, at two environments that differ only in `WHATSAPP_NUMBER`. -/
theorem config_from_env_witness :
    configHandler (envWith "WHATSAPP_NUMBER" "9647501234567") = configHandler (fun _ => none) :=
  (config_from_env (fun _ => none)).2 (envWith "WHATSAPP_NUMBER" "9647501234567")
    (by decide)

/-! ### Error middleware -/

/-- C8: the error middleware always answers with status 500 and error
`Internal server error`; unless `NODE_ENV` is `development` the message is the
fixed `Something went wrong`, so in particular under `production` two different
errors get identical responses, and the message of the error is sent only
under `development`. -/
theorem error_message_hidden (env : Env) (err : JsError) :
    (errorHandler env err).status = 500 ∧
    (∃ m, (errorHandler env err).body = .failure "Internal server error" m) ∧
    (env "NODE_ENV" = some "production" →
      errorHandler env err = ⟨500, .failure "Internal server error" "Something went wrong"⟩ ∧
      ∀ err2 : JsError, errorHandler env err2 = errorHandler env err) ∧
    (env "NODE_ENV" ≠ some "development" →
      errorHandler env err = ⟨500, .failure "Internal server error" "Something went wrong"⟩) ∧
    (env "NODE_ENV" = some "development" →
      errorHandler env err = ⟨500, .failure "Internal server error" err.message⟩) := by
  refine ⟨rfl, ⟨_, rfl⟩, ?_, ?_, ?_⟩
  · intro h
    have hd : env "NODE_ENV" ≠ some "development" := by
      rw [h]
      decide
    refine ⟨by simp [errorHandler, hd], fun err2 => by simp [errorHandler, hd]⟩
  · intro hd
    simp [errorHandler, hd]
  · intro hd
    simp [errorHandler, hd]

/-- C8 under `production`: errors with different messages get the same
response. -/
theorem error_message_hidden_witness :
    envWith "NODE_ENV" "production" "NODE_ENV" = some "production" ∧
    errorHandler (envWith "NODE_ENV" "production") ⟨"ENOENT: secret path"⟩ =
      errorHandler (envWith "NODE_ENV" "production") ⟨"request entity too large"⟩ :=
  ⟨rfl, ((error_message_hidden (envWith "NODE_ENV" "production")
      ⟨"request entity too large"⟩).2.2.1 rfl).2 ⟨"ENOENT: secret path"⟩⟩

/-! ### `POST /api/logo` -/

theorem packBytes_length : ∀ l : List Nat, (packBytes l).length = l.length * 3 / 4
  | [] => rfl
  | [_] => by simp [packBytes]
  | [_, _] => by simp [packBytes]
  | [_, _, _] => by simp [packBytes]
  | _ :: _ :: _ :: _ :: rest => by
    simp only [packBytes, List.length_cons, packBytes_length rest]
    omega

theorem isBase64Char_ne_pad (c : Char) (h : isBase64Char c = true) : (c != '=') = true := by
  by_cases hc : c = '='
  · subst hc
    exact absurd h (by decide)
  · simpa using hc

theorem unbase64_isSome (c : Char) (h : isBase64Char c = true) : ∃ v, unbase64 c = some v := by
  unfold isBase64Char at h
  unfold unbase64
  split_ifs with h1 h2 h3 h4 h5
  · exact ⟨_, rfl⟩
  · exact ⟨_, rfl⟩
  · exact ⟨_, rfl⟩
  · exact ⟨_, rfl⟩
  · exact ⟨_, rfl⟩
  · simp only [Bool.or_eq_true, decide_eq_true_eq] at h h4 h5
    rcases h with (((h | h) | h) | h) | h
    · exact absurd h h1
    · exact absurd h h2
    · exact absurd h h3
    · exact absurd (Or.inl h) h4
    · exact absurd (Or.inl h) h5

theorem filterMap_unbase64_length (l : List Char) (h : ∀ c ∈ l, isBase64Char c = true) :
    (l.filterMap unbase64).length = l.length := by
  induction l with
  | nil => rfl
  | cons c cs ih =>
    obtain ⟨v, hv⟩ := unbase64_isSome c (h c (List.mem_cons_self c cs))
    rw [List.filterMap_cons_some hv, List.length_cons, List.length_cons,
      ih (fun d hd => h d (List.mem_cons_of_mem c hd))]

theorem sextets_wellFormed (chars : List Char) (pad : Nat)
    (h : ∀ c ∈ chars, isBase64Char c = true) :
    (sextets (chars ++ List.replicate pad '=')).length = chars.length := by
  unfold sextets
  rw [List.takeWhile_append_of_pos (fun c hc => isBase64Char_ne_pad c (h c hc)),
    List.takeWhile_replicate]
  simp only [bne_self_eq_false, Bool.false_eq_true, if_false, List.append_nil]
  exact filterMap_unbase64_length chars h

/-- The decoder returns as many bytes as a well-formed payload encodes. -/
theorem bufferFromBase64_length (payload : List Char) (pad : Nat)
    (hw : WellFormedBase64 payload pad) :
    (bufferFromBase64 payload).length = decodedSize payload pad := by
  obtain ⟨chars, rfl, hpad, hchars, hlen⟩ := hw
  unfold bufferFromBase64 decodedSize
  rw [packBytes_length, sextets_wellFormed chars pad hchars]
  simp only [List.length_append, List.length_replicate] at hlen ⊢
  omega

theorem splitOn_ne_nil (sep : Char) (l : List Char) : splitOn sep l ≠ [] := by
  cases l with
  | nil => simp [splitOn]
  | cons c cs =>
    unfold splitOn
    split_ifs
    · simp
    · split <;> simp

theorem splitOn_of_not_mem (sep : Char) (l : List Char) (h : sep ∉ l) :
    splitOn sep l = [l] := by
  induction l with
  | nil => rfl
  | cons c cs ih =>
    have hc : c ≠ sep := fun e => h (e ▸ List.mem_cons_self c cs)
    have hcs : sep ∉ cs := fun e => h (List.mem_cons_of_mem c e)
    simp [splitOn, hc, ih hcs]

theorem splitOn_append_sep (sep : Char) (l rest : List Char) (h : sep ∉ l) :
    splitOn sep (l ++ sep :: rest) = l :: splitOn sep rest := by
  induction l with
  | nil => simp [splitOn]
  | cons c cs ih =>
    have hc : c ≠ sep := fun e => h (e ▸ List.mem_cons_self c cs)
    have hcs : sep ∉ cs := fun e => h (List.mem_cons_of_mem c e)
    simp [splitOn, hc, ih hcs]

/-- The comparison `sizeInBytes / (1024 * 1024) > 2` of the handler. -/
theorem sizeInMB_gt_two_iff (n : Nat) :
    ((n : ℚ) / (1024 * 1024) > 2) ↔ n > maxLogoSize := by
  rw [gt_iff_lt, lt_div_iff₀ (by norm_num)]
  unfold maxLogoSize
  norm_num

/-- The body of the logo handler's `try` block for a non-empty string. -/
theorem logoTry_string (body : Json) (s : String) (hb : body.prop "logoData" = some (.str s))
    (hs : s ≠ "") :
    logoTry body =
      if !("data:image/".data.isPrefixOf s.data) then
        some ⟨400, .error "Invalid image format"⟩
      else
        match (splitOn ',' s.data)[1]? with
        | none => none
        | some payload =>
          if (bufferFromBase64 payload).length > maxLogoSize then
            some ⟨400, .error "Logo size must be less than 2MB"⟩
          else some (Response.json (.success "Logo uploaded successfully")) := by
  have ht : truthy (some (.str s)) = true := (truthy_str s).2 hs
  have key : ∀ payload : List Char,
      (if ((bufferFromBase64 payload).length : ℚ) / (1024 * 1024) > 2 then
          some (⟨400, .error "Logo size must be less than 2MB"⟩ : Response)
        else some (Response.json (.success "Logo uploaded successfully"))) =
      (if (bufferFromBase64 payload).length > maxLogoSize then
          some ⟨400, .error "Logo size must be less than 2MB"⟩
        else some (Response.json (.success "Logo uploaded successfully"))) := by
    intro payload
    by_cases h : (bufferFromBase64 payload).length > maxLogoSize
    · rw [if_pos h, if_pos ((sizeInMB_gt_two_iff _).2 h)]
    · rw [if_neg h, if_neg (fun h2 => h ((sizeInMB_gt_two_iff _).1 h2))]
  cases body with
  | null => cases hb
  | bool b => cases hb
  | num n => cases hb
  | str t => cases hb
  | arr xs => cases hb
  | obj kvs =>
    simp only [logoTry, hb, ht, Bool.not_true, Bool.false_eq_true, if_false]
    split_ifs with h1
    · rfl
    · cases (splitOn ',' s.data)[1]? with
      | none => rfl
      | some payload => exact key payload

theorem logoHandler_string (body : Json) (s : String)
    (hb : body.prop "logoData" = some (.str s)) (hs : s ≠ "") :
    logoHandler body =
      if !("data:image/".data.isPrefixOf s.data) then ⟨400, .error "Invalid image format"⟩
      else
        match (splitOn ',' s.data)[1]? with
        | none => ⟨500, .error "An error occurred. Please try again later."⟩
        | some payload =>
          if (bufferFromBase64 payload).length > maxLogoSize then
            ⟨400, .error "Logo size must be less than 2MB"⟩
          else ⟨200, .success "Logo uploaded successfully"⟩ := by
  unfold logoHandler
  rw [logoTry_string body s hb hs]
  split_ifs with h1
  · rfl
  · cases (splitOn ',' s.data)[1]? with
    | none => rfl
    | some payload =>
      simp only
      split_ifs <;> rfl

theorem ne_empty_of_prefixed (s : String) (rest : List Char)
    (h : s.data = "data:image/".data ++ rest) : s ≠ "" := by
  rintro rfl
  cases h

theorem isPrefixOf_of_data_eq (s : String) (rest : List Char)
    (h : s.data = "data:image/".data ++ rest) :
    "data:image/".data.isPrefixOf s.data = true := by
  rw [List.isPrefixOf_iff_prefix, h]
  exact List.prefix_append _ _

theorem splitOn_data_uri (hdr rest : List Char) (hh : ',' ∉ hdr) :
    (splitOn ',' ("data:image/".data ++ hdr ++ ',' :: rest))[1]? =
      (splitOn ',' rest)[0]? := by
  have hp : ',' ∉ "data:image/".data ++ hdr := by
    intro h
    rcases List.mem_append.1 h with h | h
    · exact absurd h (by decide)
    · exact hh h
  rw [splitOn_append_sep ',' _ rest hp]
  exact List.getElem?_cons_succ

/-- C3: for a logo string `data:image/<hdr>,<payload>` whose first comma is
followed by a well-formed base64 payload, the decoder returns the number of
bytes the payload encodes, the handler answers 400 `{error: 'Logo size must be
less than 2MB'}` exactly when that number is strictly greater than 2,097,152,
and 200 `{success: true, message: 'Logo uploaded successfully'}` exactly when
it is at most 2,097,152. -/
theorem logo_size_limit (body : Json) (s : String) (hdr payload : List Char) (pad : Nat)
    (hb : body.prop "logoData" = some (.str s))
    (hs : s.data = "data:image/".data ++ hdr ++ ',' :: payload)
    (hh : ',' ∉ hdr) (hw : WellFormedBase64 payload pad) :
    maxLogoSize = 2097152 ∧
    (bufferFromBase64 payload).length = decodedSize payload pad ∧
    (logoHandler body = ⟨400, .error "Logo size must be less than 2MB"⟩ ↔
      decodedSize payload pad > 2097152) ∧
    (logoHandler body = ⟨200, .success "Logo uploaded successfully"⟩ ↔
      decodedSize payload pad ≤ 2097152) := by
  have hne : s ≠ "" := ne_empty_of_prefixed s (hdr ++ ',' :: payload) (by simpa using hs)
  have hpre := isPrefixOf_of_data_eq s (hdr ++ ',' :: payload) (by simpa using hs)
  have hcomma : ',' ∉ payload := by
    obtain ⟨chars, rfl, _, hchars, _⟩ := hw
    intro h
    rcases List.mem_append.1 h with h | h
    · exact absurd (hchars _ h) (by decide)
    · exact absurd (List.eq_of_mem_replicate h) (by decide)
  have hsplit : (splitOn ',' s.data)[1]? = some payload := by
    rw [hs, splitOn_data_uri hdr payload hh, splitOn_of_not_mem ',' payload hcomma]
    rfl
  have hlen := bufferFromBase64_length payload pad hw
  have hr := logoHandler_string body s hb hne
  rw [hpre, hsplit] at hr
  simp only [Bool.not_true, Bool.false_eq_true, if_false, hlen] at hr
  refine ⟨rfl, hlen, ?_, ?_⟩
  · rw [hr]
    by_cases h : decodedSize payload pad > maxLogoSize
    · simp only [if_pos h, true_iff]
      exact h
    · simp only [if_neg h]
      constructor
      · intro e
        exact absurd e (by decide)
      · intro e
        exact absurd e h
  · rw [hr]
    by_cases h : decodedSize payload pad > maxLogoSize
    · simp only [if_pos h]
      constructor
      · intro e
        exact absurd e (by decide)
      · intro e
        exact absurd h (Nat.not_lt.2 e)
    · simp only [if_neg h, true_iff]
      exact Nat.not_lt.1 h

theorem logoBody_prop (s : String) : (logoBody s).prop "logoData" = some (.str s) := by
  simp [logoBody, Json.prop, JsonFields.get]

theorem pngDataUri_data (payload : List Char) :
    (pngDataUri payload).data = "data:image/".data ++ "png;base64".data ++ ',' :: payload := by
  rfl

theorem zeroPayload_wellFormed (n pad : Nat) (hpad : pad ≤ 2) (hlen : (n + pad) % 4 = 0) :
    WellFormedBase64 (zeroPayload n pad) pad := by
  refine ⟨List.replicate n 'A', rfl, hpad, ?_, ?_⟩
  · intro c hc
    rw [List.eq_of_mem_replicate hc]
    decide
  · simp only [zeroPayload, List.length_append, List.length_replicate]
    exact hlen

theorem decodedSize_zeroPayload (n pad : Nat) :
    decodedSize (zeroPayload n pad) pad = 3 * ((n + pad) / 4) - pad := by
  simp only [decodedSize, zeroPayload, List.length_append, List.length_replicate]

/-- C3 at the boundary: a payload of exactly 2,097,152 bytes is accepted, one
of 2,097,153 bytes and one of 3 MiB are rejected. -/
theorem logo_size_limit_witness :
    (decodedSize (zeroPayload 2796203 1) 1 = 2097152 ∧
      logoHandler (logoBody (pngDataUri (zeroPayload 2796203 1))) =
        ⟨200, .success "Logo uploaded successfully"⟩) ∧
    (decodedSize (zeroPayload 2796204 0) 0 = 2097153 ∧
      logoHandler (logoBody (pngDataUri (zeroPayload 2796204 0))) =
        ⟨400, .error "Logo size must be less than 2MB"⟩) ∧
    (decodedSize (zeroPayload 4194304 0) 0 = 3 * 1024 * 1024 ∧
      logoHandler (logoBody (pngDataUri (zeroPayload 4194304 0))) =
        ⟨400, .error "Logo size must be less than 2MB"⟩) := by
  have h1 := logo_size_limit (logoBody (pngDataUri (zeroPayload 2796203 1)))
    (pngDataUri (zeroPayload 2796203 1)) "png;base64".data (zeroPayload 2796203 1) 1
    (logoBody_prop _) (pngDataUri_data _) (by decide)
    (zeroPayload_wellFormed 2796203 1 (by norm_num) (by norm_num))
  have h2 := logo_size_limit (logoBody (pngDataUri (zeroPayload 2796204 0)))
    (pngDataUri (zeroPayload 2796204 0)) "png;base64".data (zeroPayload 2796204 0) 0
    (logoBody_prop _) (pngDataUri_data _) (by decide)
    (zeroPayload_wellFormed 2796204 0 (by norm_num) (by norm_num))
  have h3 := logo_size_limit (logoBody (pngDataUri (zeroPayload 4194304 0)))
    (pngDataUri (zeroPayload 4194304 0)) "png;base64".data (zeroPayload 4194304 0) 0
    (logoBody_prop _) (pngDataUri_data _) (by decide)
    (zeroPayload_wellFormed 4194304 0 (by norm_num) (by norm_num))
  have d1 : decodedSize (zeroPayload 2796203 1) 1 = 2097152 := by
    rw [decodedSize_zeroPayload]
  have d2 : decodedSize (zeroPayload 2796204 0) 0 = 2097153 := by
    rw [decodedSize_zeroPayload]
  have d3 : decodedSize (zeroPayload 4194304 0) 0 = 3 * 1024 * 1024 := by
    rw [decodedSize_zeroPayload]
  refine ⟨⟨d1, h1.2.2.2.2 ?_⟩, ⟨d2, h2.2.2.1.2 ?_⟩, ⟨d3, h3.2.2.1.2 ?_⟩⟩
  · rw [d1]
  · rw [d2]
    norm_num
  · rw [d3]
    norm_num

theorem not_prefixed_of_head (s : String) (c : Char) (h : s.data.head? = some c)
    (hc : c ≠ 'd') : ¬ ∃ rest, s.data = "data:image/".data ++ rest := by
  rintro ⟨rest, hr⟩
  rw [hr] at h
  exact hc (Option.some.inj h).symm

theorem splitOn_second_of_mem (sep : Char) (l : List Char) (h : sep ∈ l) :
    ∃ seg, (splitOn sep l)[1]? = some seg := by
  induction l with
  | nil => cases h
  | cons c cs ih =>
    by_cases hc : c = sep
    · have hne := splitOn_ne_nil sep cs
      cases hsp : splitOn sep cs with
      | nil => exact absurd hsp hne
      | cons seg rest => exact ⟨seg, by simp [splitOn, hc, hsp]⟩
    · have hcs : sep ∈ cs := by
        rcases List.mem_cons.1 h with h | h
        · exact absurd h.symm hc
        · exact h
      obtain ⟨seg, hseg⟩ := ih hcs
      cases hsp : splitOn sep cs with
      | nil => rw [hsp] at hseg; cases hseg
      | cons seg0 rest =>
        rw [hsp] at hseg
        exact ⟨seg, by simpa [splitOn, hc, hsp] using hseg⟩

/-- C4: on a body that can be destructured, an absent or empty `logoData` is
answered with 400 `{error: 'No logo data provided'}`, and every non-empty
string that does not begin with the exact text `data:image/` is answered with
400 `{error: 'Invalid image format'}`, whatever follows in the string. -/
theorem logo_format_check (body : Json) (hb : body ≠ .null) :
    (body.prop "logoData" = none ∨ body.prop "logoData" = some (.str "") →
      logoHandler body = ⟨400, .error "No logo data provided"⟩) ∧
    (∀ s : String, body.prop "logoData" = some (.str s) → s ≠ "" →
      (¬ ∃ rest, s.data = "data:image/".data ++ rest) →
      logoHandler body = ⟨400, .error "Invalid image format"⟩) := by
  constructor
  · intro h
    have ht : truthy (body.prop "logoData") = false := by
      rcases h with h | h <;> rw [h] <;> rfl
    cases body with
    | null => exact absurd rfl hb
    | bool b => rfl
    | num n => rfl
    | str t => rfl
    | arr xs => rfl
    | obj kvs => simp [logoHandler, logoTry, ht]
  · intro s hs hne hpre
    rw [logoHandler_string body s hs hne]
    have : "data:image/".data.isPrefixOf s.data = false := by
      rw [Bool.eq_false_iff]
      intro h
      rw [List.isPrefixOf_iff_prefix] at h
      obtain ⟨t, ht⟩ := h
      exact hpre ⟨t, ht.symm⟩
    simp [this]

/-- C4 at concrete bodies: no `logoData`, an empty one, a prefix in capital
letters, and an oversized string without the prefix. -/
theorem logo_format_check_witness :
    logoHandler (.obj .nil) = ⟨400, .error "No logo data provided"⟩ ∧
    logoHandler (logoBody "") = ⟨400, .error "No logo data provided"⟩ ∧
    logoHandler (logoBody "DATA:IMAGE/png;base64,AAAA") =
      ⟨400, .error "Invalid image format"⟩ ∧
    logoHandler (logoBody ⟨'x' :: zeroPayload 4194304 0⟩) =
      ⟨400, .error "Invalid image format"⟩ :=
  ⟨(logo_format_check (.obj .nil) nofun).1 (Or.inl rfl),
   (logo_format_check (logoBody "") nofun).1 (Or.inr rfl),
   (logo_format_check (logoBody "DATA:IMAGE/png;base64,AAAA") nofun).2
      "DATA:IMAGE/png;base64,AAAA" rfl (by decide)
      (not_prefixed_of_head _ 'D' rfl (by decide)),
   (logo_format_check (logoBody ⟨'x' :: zeroPayload 4194304 0⟩) nofun).2
      ⟨'x' :: zeroPayload 4194304 0⟩ (logoBody_prop _)
      (fun h => absurd (congrArg String.data h) (List.cons_ne_nil _ _))
      (not_prefixed_of_head _ 'x' rfl (by decide))⟩

/-- A string that begins with `data:image/` and holds a comma is answered
with 200 or with the size error; one without a comma is answered with 500. -/
theorem logo_prefixed_outcome (body : Json) (s : String) (rest : List Char)
    (hb : body.prop "logoData" = some (.str s))
    (hs : s.data = "data:image/".data ++ rest) :
    (',' ∈ rest →
      logoHandler body = ⟨200, .success "Logo uploaded successfully"⟩ ∨
      logoHandler body = ⟨400, .error "Logo size must be less than 2MB"⟩) ∧
    (',' ∉ rest →
      logoHandler body = ⟨500, .error "An error occurred. Please try again later."⟩) := by
  have hne := ne_empty_of_prefixed s rest hs
  have hpre := isPrefixOf_of_data_eq s rest hs
  have hr := logoHandler_string body s hb hne
  rw [hpre] at hr
  simp only [Bool.not_true, Bool.false_eq_true, if_false] at hr
  constructor
  · intro hc
    have hmem : ',' ∈ s.data := by
      rw [hs]
      exact List.mem_append_right _ hc
    obtain ⟨seg, hseg⟩ := splitOn_second_of_mem ',' s.data hmem
    rw [hseg] at hr
    simp only at hr
    rw [hr]
    split_ifs
    · exact Or.inr rfl
    · exact Or.inl rfl
  · intro hc
    have hnot : ',' ∉ s.data := by
      rw [hs]
      intro h
      rcases List.mem_append.1 h with h | h
      · exact absurd h (by decide)
      · exact hc h
    rw [splitOn_of_not_mem ',' s.data hnot] at hr
    exact hr

/-- C10 fails on the code: the string `data:image/png` begins with the prefix
and has no comma, `split(',')[1]` is `undefined`, `Buffer.from` throws, and the
handler answers 500 `An error occurred. Please try again later.` -/
theorem logo_without_comma_is_500 :
    "data:image/".data.isPrefixOf "data:image/png".data = true ∧
    (splitOn ',' "data:image/png".data)[1]? = none ∧
    logoHandler (logoBody "data:image/png") =
      ⟨500, .error "An error occurred. Please try again later."⟩ := by
  refine ⟨by decide, by decide, by decide⟩

/-! ### Rate limiting -/

theorem Store.set_same (store : Store) (key : String) (w : RateWindow) :
    store.set key w key = some w := by
  simp [Store.set]

theorem Store.set_other (store : Store) (key k : String) (w : RateWindow) (h : k ≠ key) :
    store.set key w k = store k := by
  simp [Store.set, h]

/-- Requests inside a live window: the count decides each of them. -/
theorem runKey_live (p : Policy) (key : String) (start : Nat) :
    ∀ (ts : List Nat) (store : Store) (count : Nat),
      store key = some ⟨start, count⟩ → (∀ t ∈ ts, t < start + p.windowMs) →
      (runKey p key store ts).1 =
          List.replicate (min ts.length (p.max - count)) Decision.allowed ++
            List.replicate (ts.length - (p.max - count)) (Decision.rejected 429 p.message) ∧
        (runKey p key store ts).2 key = some ⟨start, count + ts.length⟩ ∧
        ∀ k, k ≠ key → (runKey p key store ts).2 k = store k := by
  intro ts
  induction ts with
  | nil =>
    intro store count hs _
    simp [runKey, hs]
  | cons t ts ih =>
    intro store count hs hin
    have ht : ¬ (start + p.windowMs ≤ t) := Nat.not_le.2 (hin t (List.mem_cons_self t ts))
    have hstep : checkAndConsume p store key t =
        (if count + 1 ≤ p.max then .allowed else .rejected 429 p.message,
          store.set key ⟨start, count + 1⟩) := by
      simp [checkAndConsume, hs, ht]
    obtain ⟨h1, h2, h3⟩ := ih (store.set key ⟨start, count + 1⟩) (count + 1)
      (Store.set_same _ _ _) (fun u hu => hin u (List.mem_cons_of_mem t hu))
    simp only [runKey, hstep, List.length_cons]
    refine ⟨?_, ?_, ?_⟩
    · rw [h1]
      by_cases hc : count + 1 ≤ p.max
      · have e1 : min (ts.length + 1) (p.max - count) =
            min ts.length (p.max - (count + 1)) + 1 := by omega
        have e2 : ts.length + 1 - (p.max - count) = ts.length - (p.max - (count + 1)) := by
          omega
        rw [if_pos hc, e1, e2, List.replicate_succ, List.cons_append]
      · have e1 : min (ts.length + 1) (p.max - count) = 0 := by omega
        have e2 : ts.length + 1 - (p.max - count) = ts.length + 1 := by omega
        have e3 : min ts.length (p.max - (count + 1)) = 0 := by omega
        have e4 : ts.length - (p.max - (count + 1)) = ts.length := by omega
        rw [if_neg hc, e1, e2, e3, e4, List.replicate_succ]
        rfl
    · rw [h2]
      congr 2
      omega
    · intro k hk
      rw [h3 k hk, Store.set_other _ _ _ _ hk]

/-- C5: under a policy with window `W` and maximum `M ≥ 1`, when a client
without a live window sends a request at `t0` and further requests before
`t0 + W`, the first `M` requests are allowed and all later ones are rejected
with status 429 and the message of the policy; the window then holds the
number of requests; a request at or after `t0 + W` is allowed again and
restarts the count at 1; other clients are unaffected. -/
theorem rate_limit_window (p : Policy) (key : String) (store : Store) (t0 : Nat)
    (ts : List Nat) (hmax : 1 ≤ p.max)
    (hfresh : ∀ w, store key = some w → w.start + p.windowMs ≤ t0)
    (hin : ∀ t ∈ ts, t < t0 + p.windowMs) :
    (runKey p key store (t0 :: ts)).1 =
        List.replicate (min (ts.length + 1) p.max) Decision.allowed ++
          List.replicate (ts.length + 1 - p.max) (Decision.rejected 429 p.message) ∧
      (runKey p key store (t0 :: ts)).2 key = some ⟨t0, ts.length + 1⟩ ∧
      (∀ t, t0 + p.windowMs ≤ t →
        (checkAndConsume p (runKey p key store (t0 :: ts)).2 key t).1 = Decision.allowed ∧
        (checkAndConsume p (runKey p key store (t0 :: ts)).2 key t).2 key = some ⟨t, 1⟩) ∧
      (∀ k, k ≠ key → (runKey p key store (t0 :: ts)).2 k = store k) := by
  have hfirst : checkAndConsume p store key t0 = (.allowed, store.set key ⟨t0, 1⟩) := by
    unfold checkAndConsume
    cases hs : store key with
    | none => rfl
    | some w => simp [hfresh w hs]
  obtain ⟨h1, h2, h3⟩ := runKey_live p key t0 ts (store.set key ⟨t0, 1⟩) 1
    (Store.set_same _ _ _) hin
  simp only [runKey, hfirst]
  refine ⟨?_, ?_, ?_, ?_⟩
  · rw [h1]
    have e1 : min (ts.length + 1) p.max = min ts.length (p.max - 1) + 1 := by omega
    have e2 : ts.length + 1 - p.max = ts.length - (p.max - 1) := by omega
    rw [e1, e2, List.replicate_succ, List.cons_append]
  · rw [h2]
    congr 2
    omega
  · intro t ht
    simp [checkAndConsume, h2, ht, Store.set_same]
  · intro k hk
    rw [h3 k hk, Store.set_other _ _ _ _ hk]

/-- C5 on the contact limiter: of six requests within the hour the first five
are allowed and the sixth is rejected with the configured message, and a
request one hour after the first is allowed again. -/
theorem rate_limit_window_witness :
    (runKey contactLimiter "203.0.113.7" (fun _ => none) [0, 10, 20, 30, 40, 50]).1 =
      [.allowed, .allowed, .allowed, .allowed, .allowed,
        .rejected 429 (some "Too many contact form submissions, please try again later.")] ∧
    (checkAndConsume contactLimiter
      (runKey contactLimiter "203.0.113.7" (fun _ => none) [0, 10, 20, 30, 40, 50]).2
      "203.0.113.7" 3600000).1 = .allowed := by
  have h := rate_limit_window contactLimiter "203.0.113.7" (fun _ => none) 0
    [10, 20, 30, 40, 50] (by decide) (fun w hw => by cases hw) (by decide)
  exact ⟨h.1, (h.2.2.1 3600000 (by decide)).1⟩

end Sardam
